import Mathlib

/-!
Formal model of the bus-mapping trace-to-operation-log layer of the
wasm0-circuits2 repository (`bus-mapping/src/wasm/opcodes.rs` and
`bus-mapping/src/wasm/opcodes/callvalue.rs`).

Rust functions are embedded shallowly: machine integers become `Nat`
(checked subtraction is made explicit where the Rust code would panic on
underflow), fallible code returns `Option`, and the orchestrator's side
effects (operation emission, state-database mutation, call-stack actions)
are reified as explicit values.  Primitives of `CircuitInputStateRef` and
the `StateDB` container live outside the available sources; those are
modelled from the specification and are marked as such in their doc
comments.  Everything else is translated directly from the source files.
-/

namespace Wasm0

/-- Read/write tag carried by every operation
(`operation::RW` in the bus-mapping crate). -/
inductive RW
  | Read
  | Write
  deriving DecidableEq, Repr

/-- Account fields addressed by `AccountOp` (`operation::AccountField`). -/
inductive AccountField
  | Nonce
  | Balance
  | CodeHash
  deriving DecidableEq, Repr

/-- Call-context fields used by the embedded handlers
(`operation::CallContextField`, restricted to the fields the modelled
code touches). -/
inductive CallContextField
  | TxId
  | RwCounterEndOfReversion
  | IsPersistent
  | IsSuccess
  | Value
  deriving DecidableEq, Repr

/-- Receipt fields used by `gen_end_tx_ops` (`operation::TxReceiptField`). -/
inductive TxReceiptField
  | PostStateOrStatus
  | LogLength
  | CumulativeGasUsed
  deriving DecidableEq, Repr

/-- One typed entry of the Operation Container: a discriminated record of
the operation kinds emitted by the embedded handlers, each carrying its
read/write tag, key, value and (for writes) previous value. -/
inductive Operation
  | StackOp (rw : RW) (addr : Nat) (value : Nat)
  | MemoryOp (rw : RW) (addr : Nat) (byte : Nat)
  | CallContextOp (rw : RW) (callId : Nat) (field : CallContextField) (value : Nat)
  | AccountOp (rw : RW) (address : Nat) (field : AccountField) (value : Nat) (valuePrev : Nat)
  | TxAccessListAccountOp (rw : RW) (txId : Nat) (address : Nat) (isWarm isWarmPrev : Bool)
  | TxRefundOp (rw : RW) (txId : Nat) (value valuePrev : Nat)
  | TxReceiptOp (rw : RW) (txId : Nat) (field : TxReceiptField) (value : Nat)
  deriving DecidableEq, Repr

/-- `true` exactly for `Operation.AccountOp`. -/
def Operation.isAccountOp : Operation → Bool
  | .AccountOp _ _ _ _ _ => true
  | _ => false

/-- An account of the state database: nonce, balance and code hash
(storage is not needed by the embedded code paths). -/
structure Account where
  nonce : Nat
  balance : Nat
  codeHash : Nat
  deriving DecidableEq, Repr

/-- The default empty account returned for unknown addresses. -/
def Account.empty : Account := ⟨0, 0, 0⟩

/-- Project an account field. -/
def Account.get (a : Account) : AccountField → Nat
  | .Nonce => a.nonce
  | .Balance => a.balance
  | .CodeHash => a.codeHash

/-- Update an account field. -/
def Account.set (a : Account) : AccountField → Nat → Account
  | .Nonce, v => { a with nonce := v }
  | .Balance, v => { a with balance := v }
  | .CodeHash, v => { a with codeHash := v }

/-- Modelled from the spec: the State Database (`state_db::StateDB`, not
under the available sources) — an address-to-account mapping plus the
per-transaction address access list and the global refund counter. -/
structure StateDB where
  accounts : List (Nat × Account)
  accessList : List Nat
  refund : Nat
  deriving DecidableEq, Repr

/-- First binding of an address in an account association list. -/
def lookupAccount : List (Nat × Account) → Nat → Option Account
  | [], _ => none
  | p :: l, addr => if p.1 = addr then some p.2 else lookupAccount l addr

/-- Update one field of the account bound to an address, inserting a
fresh account when the address is absent. -/
def setAccountField : List (Nat × Account) → Nat → AccountField → Nat → List (Nat × Account)
  | [], addr, f, v => [(addr, Account.empty.set f v)]
  | p :: l, addr, f, v =>
    if p.1 = addr then (p.1, p.2.set f v) :: l else p :: setAccountField l addr f v

/-- Modelled from the spec: `StateDB::get_account` returns a found flag
together with the account; reading an unknown address yields the default
empty account rather than an error. -/
def StateDB.getAccount (sdb : StateDB) (addr : Nat) : Bool × Account :=
  match lookupAccount sdb.accounts addr with
  | some a => (true, a)
  | none => (false, Account.empty)

/-- Modelled from the spec: writing one field of an account in the State
Database (inserting the account if it was absent). -/
def StateDB.setField (sdb : StateDB) (addr : Nat) (field : AccountField) (v : Nat) : StateDB :=
  { sdb with accounts := setAccountField sdb.accounts addr field v }

/-- Modelled from the spec: `StateDB::check_account_in_access_list`. -/
def StateDB.inAccessList (sdb : StateDB) (addr : Nat) : Bool :=
  sdb.accessList.contains addr

/-- Modelled from the spec: `StateDB::add_account_to_access_list`. -/
def StateDB.addToAccessList (sdb : StateDB) (addr : Nat) : StateDB :=
  { sdb with accessList := addr :: sdb.accessList }

/-- Modelled from the spec: `StateDB::destruct_account` removes the
account at the given address. -/
def StateDB.destructAccount (sdb : StateDB) (addr : Nat) : StateDB :=
  { sdb with accounts := sdb.accounts.filter (fun p => !(p.1 == addr)) }

/-- Checked machine subtraction: Rust debug builds panic on underflow of
`u64`/`U256` subtraction, modelled as `none`. -/
def checkedSub (a b : Nat) : Option Nat :=
  if b ≤ a then some (a - b) else none

/-- Word encoding of a boolean flag (`as usize` / `as u8` / `as u64`
casts in the source). -/
def boolToWord (b : Bool) : Nat :=
  if b then 1 else 0

/-- Modelled from the spec: `CircuitInputStateRef::account_write` — the
supplied previous value must match the database's current value exactly
(a mismatch is a fatal invariant violation, modelled as `none`); on
success it appends an `AccountOp` write and mutates the database. -/
def accountWrite (sdb : StateDB) (addr : Nat) (field : AccountField) (value valuePrev : Nat) :
    Option (Operation × StateDB) :=
  if (sdb.getAccount addr).2.get field == valuePrev then
    some (Operation.AccountOp RW.Write addr field value valuePrev, sdb.setField addr field value)
  else
    none

/-!
## Memory divergence check of `gen_associated_ops`

Embeds lines 479-515 of `bus-mapping/src/wasm/opcodes.rs`: before
dispatching a step, the orchestrator may compare its call-context memory
with the trace step's global memory, depending on the `CHECK_MEM_STRICT`
configuration.
-/

/-- What the memory-divergence prelude of `gen_associated_ops` did:
`panicked` is the `panic!("mem wrong")` path, `loggedAndFixed` is the
log-then-overwrite path of check level 1, `unchanged` means the state
memory was left alone (either because the memories agreed or because no
comparison was performed at all). -/
inductive MemCheckOutcome
  | panicked
  | loggedAndFixed
  | unchanged
  deriving DecidableEq, Repr

/-- Embeds the memory-check prelude of `gen_associated_ops`
(lines 479-515 of `opcodes.rs`).  `memoryEnabled` is
`!geth_steps.iter().all(|s| s.memory.is_empty())`; `stateMem` is the
orchestrator's call-context memory and `traceMem` is
`geth_steps[0].global_memory`.  Returns the outcome together with the
call-context memory afterwards. -/
def mem_check (checkMemStrict : Bool) (memoryEnabled : Bool)
    (stateMem traceMem : List Nat) : MemCheckOutcome × List Nat :=
  if memoryEnabled then
    let checkLevel : Nat := if checkMemStrict then 2 else 0
    if checkLevel ≥ 1 then
      if stateMem ≠ traceMem then
        if checkLevel ≥ 2 then
          (MemCheckOutcome.panicked, stateMem)
        else
          (MemCheckOutcome.loggedAndFixed, traceMem)
      else
        (MemCheckOutcome.unchanged, stateMem)
    else
      (MemCheckOutcome.unchanged, stateMem)
  else
    (MemCheckOutcome.unchanged, stateMem)

/-!
## CALLVALUE handler

Embeds `Callvalue::gen_associated_ops` from
`bus-mapping/src/wasm/opcodes/callvalue.rs`.
-/

/-- `U256::from_big_endian`: interpret a byte list, most significant
byte first, as a number. -/
def fromBigEndian (bs : List Nat) : Nat :=
  bs.foldl (fun a b => 256 * a + b) 0

lemma foldl_be_init (a : Nat) (l : List Nat) :
    l.foldl (fun x b => 256 * x + b) a
      = a * 256 ^ l.length + l.foldl (fun x b => 256 * x + b) 0 := by
  induction l generalizing a with
  | nil => simp
  | cons b l ih =>
    simp only [List.foldl_cons, List.length_cons, Nat.mul_zero, Nat.zero_add]
    rw [ih (256 * a + b), ih b]
    ring

lemma fromBigEndian_cons (b : Nat) (l : List Nat) :
    fromBigEndian (b :: l) = b * 256 ^ l.length + fromBigEndian l := by
  simp only [fromBigEndian, List.foldl_cons]
  rw [foldl_be_init]
  ring_nf

lemma fromBigEndian_lt (l : List Nat) (h : ∀ b ∈ l, b < 256) :
    fromBigEndian l < 256 ^ l.length := by
  induction l with
  | nil => simp [fromBigEndian]
  | cons b l ih =>
    have hb : b < 256 := h b (List.mem_cons_self _ _)
    have hl : ∀ x ∈ l, x < 256 := fun x hx => h x (List.mem_cons_of_mem _ hx)
    have hr := ih hl
    rw [fromBigEndian_cons]
    calc b * 256 ^ l.length + fromBigEndian l
        < b * 256 ^ l.length + 256 ^ l.length := Nat.add_lt_add_left hr _
      _ = (b + 1) * 256 ^ l.length := by ring
      _ ≤ 256 * 256 ^ l.length := Nat.mul_le_mul_right _ hb
      _ = 256 ^ (b :: l).length := by rw [List.length_cons]; ring

/-- Extracting the `i`-th big-endian byte of `fromBigEndian l` recovers
`l.getD i 0`. -/
lemma fromBigEndian_getD (l : List Nat) (h : ∀ b ∈ l, b < 256) :
    ∀ i, i < l.length →
      fromBigEndian l / 256 ^ (l.length - 1 - i) % 256 = l.getD i 0 := by
  induction l with
  | nil => intro i hi; simp at hi
  | cons b l ih =>
    intro i hi
    have hb : b < 256 := h b (List.mem_cons_self _ _)
    have hl : ∀ x ∈ l, x < 256 := fun x hx => h x (List.mem_cons_of_mem _ hx)
    have hr : fromBigEndian l < 256 ^ l.length := fromBigEndian_lt l hl
    rw [fromBigEndian_cons]
    cases i with
    | zero =>
      have he : (b :: l).length - 1 - 0 = l.length := by
        simp
      rw [he, List.getD_cons_zero, Nat.add_comm,
        Nat.add_mul_div_right _ _ (pow_pos (by norm_num) l.length),
        Nat.div_eq_of_lt hr]
      simpa using Nat.mod_eq_of_lt hb
    | succ j =>
      have hj : j < l.length := by
        simpa [Nat.succ_lt_succ_iff] using hi
      have he : (b :: l).length - 1 - (j + 1) = l.length - 1 - j := by
        simp only [List.length_cons]
        omega
      have hsplit : b * 256 ^ l.length
          = 256 ^ (l.length - 1 - j) * (b * 256 ^ (j + 1)) := by
        have hexp : (l.length - 1 - j) + (j + 1) = l.length := by omega
        calc b * 256 ^ l.length
            = b * 256 ^ ((l.length - 1 - j) + (j + 1)) := by rw [hexp]
          _ = 256 ^ (l.length - 1 - j) * (b * 256 ^ (j + 1)) := by rw [pow_add]; ring
      rw [he, hsplit, Nat.mul_add_div (pow_pos (by norm_num) _)]
      have hmul : b * 256 ^ (j + 1) = 256 * (b * 256 ^ j) := by ring
      rw [hmul, Nat.mul_add_mod, List.getD_cons_succ]
      exact ih hl j hj

/-- One raw trace step (`eth_types::GethExecStep`), restricted to the
fields the CALLVALUE handler consumes.  The stack is listed top first,
so `stack.nth_last(i)` is `stack.get? i`; `memory` is the step's list of
32-byte memory words and `globalMemory` its flat global memory bytes. -/
structure GethExecStep where
  stack : List Nat
  memory : List (List Nat)
  globalMemory : List Nat
  deriving DecidableEq, Repr

/-- `Stack::nth_last(i)` over a top-first stack list. -/
def Stack.nthLast (s : List Nat) (i : Nat) : Option Nat :=
  s.get? i

/-- `Stack::nth_last_filled(i)`: the 1024-slot stack address of the
`i`-th element from the top. -/
def Stack.nthLastFilled (s : List Nat) (i : Nat) : Nat :=
  1024 - s.length + i

/-- `CALL_VALUE_BYTE_LENGTH` from `callvalue.rs`. -/
def CALL_VALUE_BYTE_LENGTH : Nat := 32

/-- Result of the CALLVALUE handler: the operations appended to the
step's bus-mapping instance (in order) and the call context memory it
installs from the next step's global memory. -/
structure CallvalueResult where
  ops : List Operation
  callCtxMemory : List Nat
  deriving DecidableEq, Repr

/-- Embeds `Callvalue::gen_associated_ops` (`callvalue.rs` lines 17-49):
reads the call value from the next step's first memory word, emits one
CallContext read of it, one Stack read of the destination offset at the
top slot, then 32 MemoryOp writes of the value's bytes at consecutive
addresses; panicking accesses (missing memory word, missing stack
element) and the fallible `MemoryAddress::try_from` become `none`. -/
def Callvalue.gen_associated_ops (callId : Nat) (geth_step geth_second_step : GethExecStep) :
    Option CallvalueResult :=
  match geth_second_step.memory.head? with
  | none => none
  | some value =>
    if value.length = CALL_VALUE_BYTE_LENGTH then
      match Stack.nthLast geth_step.stack 0 with
      | none => none
      | some destOffset =>
        if destOffset < 2 ^ 64 then
          some ⟨Operation.CallContextOp RW.Read callId CallContextField.Value (fromBigEndian value) ::
                Operation.StackOp RW.Read (Stack.nthLastFilled geth_step.stack 0) destOffset ::
                (List.range CALL_VALUE_BYTE_LENGTH).map
                  (fun i => Operation.MemoryOp RW.Write (destOffset + i) (value.getD i 0)),
                geth_second_step.globalMemory⟩
        else none
    else none

/-- C1: a CALLVALUE step with top-of-stack destination offset `d` in a
call of value `V` (read from the next trace step's first memory word)
emits exactly one CallContext read of the value, then one Stack read of
`d` at the top stack slot, then 32 MemoryOp writes at addresses
`d, d+1, …, d+31` holding the big-endian bytes of `V`; since each
emission appends one bus-mapping entry, the step's bus-mapping instance
has exactly 34 entries. -/
theorem callvalue_step_ops (callId : Nat) (geth_step geth_second_step : GethExecStep)
    (bytes : List Nat) (mrest : List (List Nat)) (d : Nat) (srest : List Nat)
    (hmem : geth_second_step.memory = bytes :: mrest)
    (hlen : bytes.length = 32)
    (hbytes : ∀ b ∈ bytes, b < 256)
    (hstack : geth_step.stack = d :: srest)
    (hd : d < 2 ^ 64) :
    Callvalue.gen_associated_ops callId geth_step geth_second_step = some
      ⟨Operation.CallContextOp RW.Read callId CallContextField.Value (fromBigEndian bytes) ::
       Operation.StackOp RW.Read (1023 - srest.length) d ::
       (List.range 32).map (fun i =>
         Operation.MemoryOp RW.Write (d + i) (fromBigEndian bytes / 256 ^ (31 - i) % 256)),
       geth_second_step.globalMemory⟩ ∧
    (Operation.CallContextOp RW.Read callId CallContextField.Value (fromBigEndian bytes) ::
       Operation.StackOp RW.Read (1023 - srest.length) d ::
       (List.range 32).map (fun i =>
         Operation.MemoryOp RW.Write (d + i) (fromBigEndian bytes / 256 ^ (31 - i) % 256))).length
      = 34 := by
  have hmap : ∀ i ∈ List.range 32,
      Operation.MemoryOp RW.Write (d + i) (bytes.getD i 0)
        = Operation.MemoryOp RW.Write (d + i) (fromBigEndian bytes / 256 ^ (31 - i) % 256) := by
    intro i hi
    have hi32 : i < 32 := List.mem_range.mp hi
    have hbyte := fromBigEndian_getD bytes hbytes i (by rw [hlen]; exact hi32)
    rw [hlen] at hbyte
    have h31 : (32 : Nat) - 1 - i = 31 - i := by omega
    rw [h31] at hbyte
    rw [hbyte]
  have haddr : Stack.nthLastFilled (d :: srest) 0 = 1023 - srest.length := by
    simp only [Stack.nthLastFilled, List.length_cons]
    omega
  constructor
  · simp only [Callvalue.gen_associated_ops, hmem, hstack, List.head?_cons, Stack.nthLast,
      List.get?_cons_zero, CALL_VALUE_BYTE_LENGTH, hlen, if_true, if_pos hd, haddr]
    rw [List.map_congr_left hmap]
  · simp

/-- C1 witness: the theorem applied at a concrete step (destination
offset `0x7f`, value 7). -/
theorem callvalue_step_ops_witness :
    (127 : Nat) < 2 ^ 64 ∧
    ∃ r, Callvalue.gen_associated_ops 1 ⟨[127], [], []⟩
      ⟨[], [List.replicate 31 0 ++ [7]], [1, 2, 3]⟩ = some r :=
  ⟨by decide,
   ⟨_, (callvalue_step_ops 1 ⟨[127], [], []⟩ ⟨[], [List.replicate 31 0 ++ [7]], [1, 2, 3]⟩
      (List.replicate 31 0 ++ [7]) [] 127 [] rfl (by decide) (by decide) rfl (by decide)).1⟩⟩

/-!
## SELFDESTRUCT handler

Embeds `dummy_gen_selfdestruct_ops` (`bus-mapping/src/wasm/opcodes.rs`
lines 991-1076).
-/

lemma StateDB.getAccount_addToAccessList (sdb : StateDB) (a b : Nat) :
    (sdb.addToAccessList a).getAccount b = sdb.getAccount b := rfl

/-- The current call frame fields used by the SELFDESTRUCT handler. -/
structure SelfdestructCall where
  address : Nat
  isPersistent : Bool
  deriving DecidableEq, Repr

/-- Orchestrator context consumed by the SELFDESTRUCT handler. -/
structure SelfdestructEnv where
  txId : Nat
  call : SelfdestructCall
  sdb : StateDB
  deriving DecidableEq, Repr

/-- Result of the SELFDESTRUCT handler: the reversible operations pushed
by `push_op_reversible`, in order, and the state database afterwards. -/
structure SelfdestructResult where
  revOps : List Operation
  sdb : StateDB
  deriving DecidableEq, Repr

/-- Embeds `dummy_gen_selfdestruct_ops` (`opcodes.rs` lines 991-1076).
The stack is top first, so `geth_step.stack.last()` is `stack.head?`;
`to_address` keeps the low 160 bits.  `push_op_reversible` both applies
the operation to the state database and appends it to the reversible
log (modelled from the spec); a missing stack element or a failed
account lookup becomes `none`.  The final `handle_return` with
`need_restore = false` pops the call and appends nothing (modelled from
the spec). -/
def dummy_gen_selfdestruct_ops (env : SelfdestructEnv) (stack : List Nat) :
    Option SelfdestructResult :=
  match stack.head? with
  | none => none
  | some top =>
    let sender := env.call.address
    let receiver := top % 2 ^ 160
    let is_warm := env.sdb.inAccessList receiver
    let accessOp := Operation.TxAccessListAccountOp RW.Write env.txId receiver true is_warm
    let sdb1 := env.sdb.addToAccessList receiver
    match sdb1.getAccount receiver with
    | (false, _) => none
    | (true, receiver_account) =>
      match sdb1.getAccount sender with
      | (false, _) => none
      | (true, sender_account) =>
        let value := sender_account.balance
        let balOp := Operation.AccountOp RW.Write sender AccountField.Balance 0 value
        let sdb2 := sdb1.setField sender AccountField.Balance 0
        let nonceOp := Operation.AccountOp RW.Write sender AccountField.Nonce 0 sender_account.nonce
        let sdb3 := sdb2.setField sender AccountField.Nonce 0
        let chOp := Operation.AccountOp RW.Write sender AccountField.CodeHash 0 sender_account.codeHash
        let sdb4 := sdb3.setField sender AccountField.CodeHash 0
        let creditOps := if receiver ≠ sender then
            [Operation.AccountOp RW.Write receiver AccountField.Balance
              (receiver_account.balance + value) receiver_account.balance]
          else []
        let sdb5 := if receiver ≠ sender then
            sdb4.setField receiver AccountField.Balance (receiver_account.balance + value)
          else sdb4
        let sdb6 := if env.call.isPersistent then sdb5.destructAccount sender else sdb5
        some ⟨accessOp :: balOp :: nonceOp :: chOp :: creditOps, sdb6⟩

/-- C2: on a SELFDESTRUCT step whose popped receiver equals the sender
(the current call's address), the handler pushes exactly 3 reversible
AccountOps — zeroing the sender's Balance, Nonce and CodeHash, each with
`value_prev` equal to the current database value — and pushes no
receiver balance-credit AccountOp (every pushed AccountOp writes 0 to
the sender). -/
theorem selfdestruct_sender_eq_receiver (env : SelfdestructEnv) (stack : List Nat)
    (top : Nat) (acc : Account)
    (hstack : stack.head? = some top)
    (hrecv : top % 2 ^ 160 = env.call.address)
    (hacc : env.sdb.getAccount env.call.address = (true, acc)) :
    ∃ sdbOut, dummy_gen_selfdestruct_ops env stack = some
      ⟨[Operation.TxAccessListAccountOp RW.Write env.txId env.call.address true
          (env.sdb.inAccessList env.call.address),
        Operation.AccountOp RW.Write env.call.address AccountField.Balance 0 acc.balance,
        Operation.AccountOp RW.Write env.call.address AccountField.Nonce 0 acc.nonce,
        Operation.AccountOp RW.Write env.call.address AccountField.CodeHash 0 acc.codeHash],
       sdbOut⟩ ∧
      ([Operation.TxAccessListAccountOp RW.Write env.txId env.call.address true
          (env.sdb.inAccessList env.call.address),
        Operation.AccountOp RW.Write env.call.address AccountField.Balance 0 acc.balance,
        Operation.AccountOp RW.Write env.call.address AccountField.Nonce 0 acc.nonce,
        Operation.AccountOp RW.Write env.call.address AccountField.CodeHash 0 acc.codeHash] :
          List Operation).countP (fun op => op.isAccountOp) = 3 ∧
      (∀ op ∈ ([Operation.TxAccessListAccountOp RW.Write env.txId env.call.address true
          (env.sdb.inAccessList env.call.address),
        Operation.AccountOp RW.Write env.call.address AccountField.Balance 0 acc.balance,
        Operation.AccountOp RW.Write env.call.address AccountField.Nonce 0 acc.nonce,
        Operation.AccountOp RW.Write env.call.address AccountField.CodeHash 0 acc.codeHash] :
          List Operation), op.isAccountOp = true →
        ∃ f vp, op = Operation.AccountOp RW.Write env.call.address f 0 vp) := by
  have key : ∃ sdbOut, dummy_gen_selfdestruct_ops env stack = some
      ⟨[Operation.TxAccessListAccountOp RW.Write env.txId env.call.address true
          (env.sdb.inAccessList env.call.address),
        Operation.AccountOp RW.Write env.call.address AccountField.Balance 0 acc.balance,
        Operation.AccountOp RW.Write env.call.address AccountField.Nonce 0 acc.nonce,
        Operation.AccountOp RW.Write env.call.address AccountField.CodeHash 0 acc.codeHash],
       sdbOut⟩ := by
    simp only [dummy_gen_selfdestruct_ops, hstack, StateDB.getAccount_addToAccessList,
      hrecv, hacc, ne_eq, not_true_eq_false, if_false]
    exact ⟨_, rfl⟩
  obtain ⟨sdbOut, key⟩ := key
  refine ⟨sdbOut, key, by simp [Operation.isAccountOp], ?_⟩
  intro op hop hacc2
  simp only [List.mem_cons, List.not_mem_nil, or_false] at hop
  rcases hop with rfl | rfl | rfl | rfl
  · simp [Operation.isAccountOp] at hacc2
  · exact ⟨_, _, rfl⟩
  · exact ⟨_, _, rfl⟩
  · exact ⟨_, _, rfl⟩

/-- C2 witness: the theorem applied at a concrete state where the
receiver address equals the sender. -/
theorem selfdestruct_sender_eq_receiver_witness :
    ((5 : Nat) % 2 ^ 160 = 5) ∧
    ∃ sdbOut, dummy_gen_selfdestruct_ops
        ⟨1, ⟨5, false⟩, ⟨[(5, ⟨2, 100, 7⟩)], [], 0⟩⟩ [5] = some
      ⟨[Operation.TxAccessListAccountOp RW.Write 1 5 true
          (StateDB.inAccessList ⟨[(5, ⟨2, 100, 7⟩)], [], 0⟩ 5),
        Operation.AccountOp RW.Write 5 AccountField.Balance 0 100,
        Operation.AccountOp RW.Write 5 AccountField.Nonce 0 2,
        Operation.AccountOp RW.Write 5 AccountField.CodeHash 0 7],
       sdbOut⟩ :=
  ⟨by decide,
   ⟨(selfdestruct_sender_eq_receiver ⟨1, ⟨5, false⟩, ⟨[(5, ⟨2, 100, 7⟩)], [], 0⟩⟩ [5] 5
      ⟨2, 100, 7⟩ rfl (by decide) (by decide)).choose,
    (selfdestruct_sender_eq_receiver ⟨1, ⟨5, false⟩, ⟨[(5, ⟨2, 100, 7⟩)], [], 0⟩⟩ [5] 5
      ⟨2, 100, 7⟩ rfl (by decide) (by decide)).choose_spec.1⟩⟩

/-- C10: every successful SELFDESTRUCT invocation pushes, as its first
reversible operation, one `TxAccessListAccountOp` marking the receiver
warm with `is_warm_prev` equal to the receiver's current access-list
membership, before pushing any AccountOp; the rest of the reversible
log consists of AccountOps only. -/
theorem selfdestruct_access_list_first (env : SelfdestructEnv) (stack : List Nat)
    (top : Nat) (racc sacc : Account)
    (hstack : stack.head? = some top)
    (hr : env.sdb.getAccount (top % 2 ^ 160) = (true, racc))
    (hs : env.sdb.getAccount env.call.address = (true, sacc)) :
    ∃ rest sdbOut, dummy_gen_selfdestruct_ops env stack = some
      ⟨Operation.TxAccessListAccountOp RW.Write env.txId (top % 2 ^ 160) true
         (env.sdb.inAccessList (top % 2 ^ 160)) :: rest, sdbOut⟩ ∧
      (∀ op ∈ rest, op.isAccountOp = true) := by
  simp only [dummy_gen_selfdestruct_ops, hstack, StateDB.getAccount_addToAccessList, hr, hs]
  refine ⟨_, _, rfl, ?_⟩
  intro op hop
  simp only [List.mem_cons] at hop
  rcases hop with rfl | rfl | rfl | hop
  · rfl
  · rfl
  · rfl
  · split at hop
    · simp only [List.mem_cons, List.not_mem_nil, or_false] at hop
      subst hop
      rfl
    · simp at hop

/-- C10 witness: the theorem applied at a concrete state where the
receiver differs from the sender. -/
theorem selfdestruct_access_list_first_witness :
    ((9 : Nat) % 2 ^ 160 = 9) ∧
    ∃ rest sdbOut, dummy_gen_selfdestruct_ops
        ⟨1, ⟨5, false⟩, ⟨[(5, ⟨1, 100, 7⟩), (9, ⟨0, 50, 3⟩)], [], 0⟩⟩ [9] = some
      ⟨Operation.TxAccessListAccountOp RW.Write 1 (9 % 2 ^ 160) true
         (StateDB.inAccessList ⟨[(5, ⟨1, 100, 7⟩), (9, ⟨0, 50, 3⟩)], [], 0⟩ (9 % 2 ^ 160)) :: rest,
        sdbOut⟩ ∧
      (∀ op ∈ rest, op.isAccountOp = true) :=
  ⟨by decide,
   selfdestruct_access_list_first ⟨1, ⟨5, false⟩, ⟨[(5, ⟨1, 100, 7⟩), (9, ⟨0, 50, 3⟩)], [], 0⟩⟩
     [9] 9 ⟨0, 50, 3⟩ ⟨1, 100, 7⟩ rfl (by decide) (by decide)⟩

/-!
## Transaction epilogue

Embeds `gen_end_tx_ops` (`bus-mapping/src/wasm/opcodes.rs` lines
856-977).
-/

/-- Modelled from the spec: the refund cap divisor
`MAX_REFUND_QUOTIENT_OF_GAS_USED` (`eth_types::evm_types`, not under the
available sources); its EIP-3529 value is 5.  The claims only use it
symbolically. -/
def MAX_REFUND_QUOTIENT_OF_GAS_USED : Nat := 5

/-- Orchestrator context consumed by `gen_end_tx_ops`: `txId` is
`state.tx_ctx.id()`, `txGas` is `state.tx.gas`, `gasLeft` is
`exec_step.gas_left`, `logId` is `exec_step.log_id`,
`cumulativeGasUsed` and `rwc` are the block context counters at entry,
`isPersistent`/`callId`/`callerAddress` come from the root call
`state.tx.calls()[0]`, and `baseFee`/`coinbase` from the block header. -/
structure EndTxEnv where
  txId : Nat
  txGas : Nat
  gasPrice : Nat
  l1Fee : Nat
  baseFee : Nat
  coinbase : Nat
  callerAddress : Nat
  callId : Nat
  isPersistent : Bool
  gasLeft : Nat
  logId : Nat
  cumulativeGasUsed : Nat
  rwc : Nat
  isLastTx : Bool
  sdb : StateDB
  deriving DecidableEq, Repr

/-- Result of `gen_end_tx_ops`: the operations appended in order, the
state database afterwards, and the updated cumulative gas counter. -/
structure EndTxResult where
  ops : List Operation
  sdb : StateDB
  cumulativeGasUsed : Nat
  deriving DecidableEq, Repr

/-- Embeds `gen_end_tx_ops` (`opcodes.rs` lines 856-977).  The first
three operations (TxId read, IsPersistent read, refund read) are
emitted before any arithmetic; subtractions that would panic on
underflow and failed account lookups become `none`.  Each emitted
operation advances the read-write counter by one, so the final
next-transaction `TxId` pre-write uses call id `rwc + |ops so far| + 1`
(`state.block_ctx.rwc.0 + 1` in the source). -/
def gen_end_tx_ops (env : EndTxEnv) : Option EndTxResult :=
  match checkedSub env.txGas env.gasLeft with
  | none => none
  | some gasUsed =>
    let refund := env.sdb.refund
    let effectiveRefund := min refund (gasUsed / MAX_REFUND_QUOTIENT_OF_GAS_USED)
    match env.sdb.getAccount env.callerAddress with
    | (false, _) => none
    | (true, callerAccount) =>
      let callerBalancePrev := callerAccount.balance
      let callerBalance := callerBalancePrev + env.gasPrice * (env.gasLeft + effectiveRefund)
      match accountWrite env.sdb env.callerAddress AccountField.Balance
          callerBalance callerBalancePrev with
      | none => none
      | some (callerOp, sdb1) =>
        match checkedSub env.gasPrice env.baseFee, checkedSub gasUsed effectiveRefund with
        | some effectiveTip, some gasCost =>
          let coinbaseReward := effectiveTip * gasCost + env.l1Fee
          match sdb1.getAccount env.coinbase with
          | (false, _) => none
          | (true, coinbaseAccount) =>
            match accountWrite sdb1 env.coinbase AccountField.Balance
                (coinbaseAccount.balance + coinbaseReward) coinbaseAccount.balance with
            | none => none
            | some (coinbaseOp, sdb2) =>
              let prevCumRead : List Operation :=
                if 1 < env.txId then
                  [Operation.TxReceiptOp RW.Read (env.txId - 1)
                    TxReceiptField.CumulativeGasUsed env.cumulativeGasUsed]
                else []
              let newCumulative := env.cumulativeGasUsed + gasUsed
              let opsA :=
                [Operation.CallContextOp RW.Read env.callId CallContextField.TxId env.txId,
                 Operation.CallContextOp RW.Read env.callId CallContextField.IsPersistent
                   (boolToWord env.isPersistent),
                 Operation.TxRefundOp RW.Read env.txId refund refund]
                ++ [callerOp, coinbaseOp,
                    Operation.TxReceiptOp RW.Write env.txId TxReceiptField.PostStateOrStatus
                      (boolToWord env.isPersistent),
                    Operation.TxReceiptOp RW.Write env.txId TxReceiptField.LogLength env.logId]
                ++ prevCumRead
                ++ [Operation.TxReceiptOp RW.Write env.txId TxReceiptField.CumulativeGasUsed
                      newCumulative]
              let nextTxOps : List Operation :=
                if env.isLastTx then []
                else
                  [Operation.CallContextOp RW.Write (env.rwc + opsA.length + 1)
                    CallContextField.TxId (env.txId + 1)]
              some ⟨opsA ++ nextTxOps, sdb2, newCumulative⟩
        | _, _ => none

lemma gen_end_tx_ops_eq (env : EndTxEnv) (ca cb : Account)
    (hgas : env.gasLeft ≤ env.txGas)
    (htip : env.baseFee ≤ env.gasPrice)
    (hca : env.sdb.getAccount env.callerAddress = (true, ca))
    (hcb : (env.sdb.setField env.callerAddress AccountField.Balance
        (ca.balance + env.gasPrice * (env.gasLeft + min env.sdb.refund
          ((env.txGas - env.gasLeft) / MAX_REFUND_QUOTIENT_OF_GAS_USED)))).getAccount env.coinbase
      = (true, cb)) :
    gen_end_tx_ops env = some
      ⟨[Operation.CallContextOp RW.Read env.callId CallContextField.TxId env.txId,
        Operation.CallContextOp RW.Read env.callId CallContextField.IsPersistent
          (boolToWord env.isPersistent),
        Operation.TxRefundOp RW.Read env.txId env.sdb.refund env.sdb.refund,
        Operation.AccountOp RW.Write env.callerAddress AccountField.Balance
          (ca.balance + env.gasPrice * (env.gasLeft + min env.sdb.refund
            ((env.txGas - env.gasLeft) / MAX_REFUND_QUOTIENT_OF_GAS_USED))) ca.balance,
        Operation.AccountOp RW.Write env.coinbase AccountField.Balance
          (cb.balance + ((env.gasPrice - env.baseFee) * (env.txGas - env.gasLeft -
            min env.sdb.refund ((env.txGas - env.gasLeft) / MAX_REFUND_QUOTIENT_OF_GAS_USED))
            + env.l1Fee)) cb.balance,
        Operation.TxReceiptOp RW.Write env.txId TxReceiptField.PostStateOrStatus
          (boolToWord env.isPersistent),
        Operation.TxReceiptOp RW.Write env.txId TxReceiptField.LogLength env.logId]
       ++ (if 1 < env.txId then
            [Operation.TxReceiptOp RW.Read (env.txId - 1) TxReceiptField.CumulativeGasUsed
              env.cumulativeGasUsed]
          else [])
       ++ [Operation.TxReceiptOp RW.Write env.txId TxReceiptField.CumulativeGasUsed
            (env.cumulativeGasUsed + (env.txGas - env.gasLeft))]
       ++ (if env.isLastTx then []
          else
            [Operation.CallContextOp RW.Write (env.rwc + (if 1 < env.txId then 9 else 8) + 1)
              CallContextField.TxId (env.txId + 1)]),
       (env.sdb.setField env.callerAddress AccountField.Balance
          (ca.balance + env.gasPrice * (env.gasLeft + min env.sdb.refund
            ((env.txGas - env.gasLeft) / MAX_REFUND_QUOTIENT_OF_GAS_USED)))).setField
         env.coinbase AccountField.Balance
         (cb.balance + ((env.gasPrice - env.baseFee) * (env.txGas - env.gasLeft -
            min env.sdb.refund ((env.txGas - env.gasLeft) / MAX_REFUND_QUOTIENT_OF_GAS_USED))
            + env.l1Fee)),
       env.cumulativeGasUsed + (env.txGas - env.gasLeft)⟩ := by
  have h1 : checkedSub env.txGas env.gasLeft = some (env.txGas - env.gasLeft) := by
    simp [checkedSub, hgas]
  have h2 : checkedSub env.gasPrice env.baseFee = some (env.gasPrice - env.baseFee) := by
    simp [checkedSub, htip]
  have h3 : checkedSub (env.txGas - env.gasLeft)
      (min env.sdb.refund ((env.txGas - env.gasLeft) / MAX_REFUND_QUOTIENT_OF_GAS_USED))
      = some (env.txGas - env.gasLeft -
          min env.sdb.refund ((env.txGas - env.gasLeft) / MAX_REFUND_QUOTIENT_OF_GAS_USED)) := by
    simp [checkedSub, Nat.le_trans (Nat.min_le_right _ _) (Nat.div_le_self _ _)]
  have hwa1 : accountWrite env.sdb env.callerAddress AccountField.Balance
      (ca.balance + env.gasPrice * (env.gasLeft + min env.sdb.refund
        ((env.txGas - env.gasLeft) / MAX_REFUND_QUOTIENT_OF_GAS_USED))) ca.balance
      = some (Operation.AccountOp RW.Write env.callerAddress AccountField.Balance
          (ca.balance + env.gasPrice * (env.gasLeft + min env.sdb.refund
            ((env.txGas - env.gasLeft) / MAX_REFUND_QUOTIENT_OF_GAS_USED))) ca.balance,
        env.sdb.setField env.callerAddress AccountField.Balance
          (ca.balance + env.gasPrice * (env.gasLeft + min env.sdb.refund
            ((env.txGas - env.gasLeft) / MAX_REFUND_QUOTIENT_OF_GAS_USED)))) := by
    simp [accountWrite, hca, Account.get]
  have hwa2 : accountWrite (env.sdb.setField env.callerAddress AccountField.Balance
        (ca.balance + env.gasPrice * (env.gasLeft + min env.sdb.refund
          ((env.txGas - env.gasLeft) / MAX_REFUND_QUOTIENT_OF_GAS_USED))))
      env.coinbase AccountField.Balance
      (cb.balance + ((env.gasPrice - env.baseFee) * (env.txGas - env.gasLeft -
        min env.sdb.refund ((env.txGas - env.gasLeft) / MAX_REFUND_QUOTIENT_OF_GAS_USED))
        + env.l1Fee)) cb.balance
      = some (Operation.AccountOp RW.Write env.coinbase AccountField.Balance
          (cb.balance + ((env.gasPrice - env.baseFee) * (env.txGas - env.gasLeft -
            min env.sdb.refund ((env.txGas - env.gasLeft) / MAX_REFUND_QUOTIENT_OF_GAS_USED))
            + env.l1Fee)) cb.balance,
        (env.sdb.setField env.callerAddress AccountField.Balance
          (ca.balance + env.gasPrice * (env.gasLeft + min env.sdb.refund
            ((env.txGas - env.gasLeft) / MAX_REFUND_QUOTIENT_OF_GAS_USED)))).setField
          env.coinbase AccountField.Balance
          (cb.balance + ((env.gasPrice - env.baseFee) * (env.txGas - env.gasLeft -
            min env.sdb.refund ((env.txGas - env.gasLeft) / MAX_REFUND_QUOTIENT_OF_GAS_USED))
            + env.l1Fee))) := by
    simp [accountWrite, hcb, Account.get]
  by_cases h4 : 1 < env.txId <;> by_cases h5 : env.isLastTx <;>
    simp [gen_end_tx_ops, h1, h2, h3, hca, hwa1, hcb, hwa2, h4, h5]

/-- A concrete end-tx context with a non-zero refund counter:
`refund = 5`, `gas_used = 100`, `gas_price = 2`, `base_fee = 1`,
`l1_fee = 0`, so the code's coinbase reward is
`(2 - 1) * (100 - 0 - 5) = 95` while the claimed formula
`(gas_price - base_fee) * gas_used + l1_fee` gives `100`. -/
def envC3 : EndTxEnv :=
  ⟨1, 100, 2, 0, 1, 2, 1, 5, true, 0, 0, 0, 10, true,
   ⟨[(1, ⟨0, 0, 0⟩), (2, ⟨0, 0, 0⟩)], [], 5⟩⟩

/-- C3 counterexample: with a non-zero accumulated refund the coinbase
credit (value − value_prev of the coinbase balance write, here
`95 − 0`) differs from the claimed
`(gas_price − base_fee) × (gas limit − gas left) + L1 fee` (here
`100`): the code subtracts the effective refund from the gas used. -/
theorem endtx_coinbase_claim_counterexample :
    (gen_end_tx_ops envC3).map (fun r => r.ops.getD 4 (Operation.StackOp RW.Read 0 0))
      = some (Operation.AccountOp RW.Write envC3.coinbase AccountField.Balance 95 0) ∧
    (95 : Nat) - 0 ≠
      (envC3.gasPrice - envC3.baseFee) * (envC3.txGas - envC3.gasLeft) + envC3.l1Fee := by
  constructor
  · decide
  · decide

/-- C3 (amended): for every transaction that `gen_end_tx_ops` processes
successfully, the coinbase balance write credits exactly
`(gas_price − base_fee) × (gas_used − effective_refund) + L1 fee`, where
`gas_used` is the gas limit minus the gas left at the end-tx step and
`effective_refund = min(refund, gas_used / MAX_REFUND_QUOTIENT)`. -/
theorem endtx_coinbase_reward (env : EndTxEnv) (ca cb : Account)
    (hgas : env.gasLeft ≤ env.txGas)
    (htip : env.baseFee ≤ env.gasPrice)
    (hca : env.sdb.getAccount env.callerAddress = (true, ca))
    (hcb : (env.sdb.setField env.callerAddress AccountField.Balance
        (ca.balance + env.gasPrice * (env.gasLeft + min env.sdb.refund
          ((env.txGas - env.gasLeft) / MAX_REFUND_QUOTIENT_OF_GAS_USED)))).getAccount env.coinbase
      = (true, cb)) :
    ∃ ops sdbOut cum, gen_end_tx_ops env = some ⟨ops, sdbOut, cum⟩ ∧
      ops.get? 4 = some (Operation.AccountOp RW.Write env.coinbase AccountField.Balance
        (cb.balance + ((env.gasPrice - env.baseFee) * (env.txGas - env.gasLeft -
          min env.sdb.refund ((env.txGas - env.gasLeft) / MAX_REFUND_QUOTIENT_OF_GAS_USED))
          + env.l1Fee)) cb.balance) :=
  ⟨_, _, _, gen_end_tx_ops_eq env ca cb hgas htip hca hcb, rfl⟩

/-- C7: `gen_end_tx_ops` reads the refund counter unchanged (a
TxRefundOp read with value = value_prev, at position 2), computes the
effective refund as `min(refund, gas_used / MAX_REFUND_QUOTIENT)` with
`gas_used` the gas limit minus the gas left, and writes the caller's
balance (position 3) increased by exactly
`gas_price × (gas_left + effective_refund)` over its previous value. -/
theorem endtx_caller_refund_credit (env : EndTxEnv) (ca cb : Account)
    (hgas : env.gasLeft ≤ env.txGas)
    (htip : env.baseFee ≤ env.gasPrice)
    (hca : env.sdb.getAccount env.callerAddress = (true, ca))
    (hcb : (env.sdb.setField env.callerAddress AccountField.Balance
        (ca.balance + env.gasPrice * (env.gasLeft + min env.sdb.refund
          ((env.txGas - env.gasLeft) / MAX_REFUND_QUOTIENT_OF_GAS_USED)))).getAccount env.coinbase
      = (true, cb)) :
    ∃ ops sdbOut cum, gen_end_tx_ops env = some ⟨ops, sdbOut, cum⟩ ∧
      ops.get? 2 = some (Operation.TxRefundOp RW.Read env.txId env.sdb.refund env.sdb.refund) ∧
      ops.get? 3 = some (Operation.AccountOp RW.Write env.callerAddress AccountField.Balance
        (ca.balance + env.gasPrice * (env.gasLeft + min env.sdb.refund
          ((env.txGas - env.gasLeft) / MAX_REFUND_QUOTIENT_OF_GAS_USED))) ca.balance) :=
  ⟨_, _, _, gen_end_tx_ops_eq env ca cb hgas htip hca hcb, rfl, rfl⟩

/-- C8: for every transaction `gen_end_tx_ops` processes (including
failed ones, whose root call has `is_persistent = false` so the status
written is 0), the operations after the two balance writes are: a
receipt PostStateOrStatus write of the root call's is_persistent flag,
a receipt LogLength write, a read of the previous transaction's
CumulativeGasUsed exactly when the transaction id exceeds 1, the
updated CumulativeGasUsed write, and — exactly when the transaction is
not the block's last — a pre-write of the next transaction's TxId
call-context value. -/
theorem endtx_receipt_ops (env : EndTxEnv) (ca cb : Account)
    (hgas : env.gasLeft ≤ env.txGas)
    (htip : env.baseFee ≤ env.gasPrice)
    (hca : env.sdb.getAccount env.callerAddress = (true, ca))
    (hcb : (env.sdb.setField env.callerAddress AccountField.Balance
        (ca.balance + env.gasPrice * (env.gasLeft + min env.sdb.refund
          ((env.txGas - env.gasLeft) / MAX_REFUND_QUOTIENT_OF_GAS_USED)))).getAccount env.coinbase
      = (true, cb)) :
    ∃ ops sdbOut cum, gen_end_tx_ops env = some ⟨ops, sdbOut, cum⟩ ∧
      ops.drop 5 =
        [Operation.TxReceiptOp RW.Write env.txId TxReceiptField.PostStateOrStatus
           (boolToWord env.isPersistent),
         Operation.TxReceiptOp RW.Write env.txId TxReceiptField.LogLength env.logId]
        ++ (if 1 < env.txId then
             [Operation.TxReceiptOp RW.Read (env.txId - 1) TxReceiptField.CumulativeGasUsed
               env.cumulativeGasUsed]
           else [])
        ++ [Operation.TxReceiptOp RW.Write env.txId TxReceiptField.CumulativeGasUsed
             (env.cumulativeGasUsed + (env.txGas - env.gasLeft))]
        ++ (if env.isLastTx then []
           else
             [Operation.CallContextOp RW.Write (env.rwc + (if 1 < env.txId then 9 else 8) + 1)
               CallContextField.TxId (env.txId + 1)]) ∧
      cum = env.cumulativeGasUsed + (env.txGas - env.gasLeft) :=
  ⟨_, _, _, gen_end_tx_ops_eq env ca cb hgas htip hca hcb, rfl, rfl⟩

/-- A concrete end-tx context on which all end-tx hypotheses hold
(second transaction of its block, not the last one). -/
def envW : EndTxEnv :=
  ⟨2, 100, 3, 7, 1, 2, 1, 5, true, 10, 4, 50, 30, false,
   ⟨[(1, ⟨0, 1000, 9⟩), (2, ⟨0, 500, 8⟩)], [], 20⟩⟩

/-- The caller account of `envW`. -/
def caW : Account := ⟨0, 1000, 9⟩

/-- The coinbase account of `envW`. -/
def cbW : Account := ⟨0, 500, 8⟩

/-- C3 witness: the amended theorem applied at `envW`. -/
theorem endtx_coinbase_reward_witness :
    envW.gasLeft ≤ envW.txGas ∧
    ∃ ops sdbOut cum, gen_end_tx_ops envW = some ⟨ops, sdbOut, cum⟩ ∧
      ops.get? 4 = some (Operation.AccountOp RW.Write envW.coinbase AccountField.Balance
        (cbW.balance + ((envW.gasPrice - envW.baseFee) * (envW.txGas - envW.gasLeft -
          min envW.sdb.refund ((envW.txGas - envW.gasLeft) / MAX_REFUND_QUOTIENT_OF_GAS_USED))
          + envW.l1Fee)) cbW.balance) :=
  ⟨by decide, endtx_coinbase_reward envW caW cbW (by decide) (by decide) (by decide) (by decide)⟩

/-- C7 witness: the theorem applied at `envW`. -/
theorem endtx_caller_refund_credit_witness :
    envW.baseFee ≤ envW.gasPrice ∧
    ∃ ops sdbOut cum, gen_end_tx_ops envW = some ⟨ops, sdbOut, cum⟩ ∧
      ops.get? 2 = some (Operation.TxRefundOp RW.Read envW.txId envW.sdb.refund envW.sdb.refund) ∧
      ops.get? 3 = some (Operation.AccountOp RW.Write envW.callerAddress AccountField.Balance
        (caW.balance + envW.gasPrice * (envW.gasLeft + min envW.sdb.refund
          ((envW.txGas - envW.gasLeft) / MAX_REFUND_QUOTIENT_OF_GAS_USED))) caW.balance) :=
  ⟨by decide,
   endtx_caller_refund_credit envW caW cbW (by decide) (by decide) (by decide) (by decide)⟩

/-- C8 witness: the theorem applied at `envW`. -/
theorem endtx_receipt_ops_witness :
    envW.sdb.getAccount envW.callerAddress = (true, caW) ∧
    ∃ ops sdbOut cum, gen_end_tx_ops envW = some ⟨ops, sdbOut, cum⟩ ∧
      ops.drop 5 =
        [Operation.TxReceiptOp RW.Write envW.txId TxReceiptField.PostStateOrStatus
           (boolToWord envW.isPersistent),
         Operation.TxReceiptOp RW.Write envW.txId TxReceiptField.LogLength envW.logId]
        ++ (if 1 < envW.txId then
             [Operation.TxReceiptOp RW.Read (envW.txId - 1) TxReceiptField.CumulativeGasUsed
               envW.cumulativeGasUsed]
           else [])
        ++ [Operation.TxReceiptOp RW.Write envW.txId TxReceiptField.CumulativeGasUsed
             (envW.cumulativeGasUsed + (envW.txGas - envW.gasLeft))]
        ++ (if envW.isLastTx then []
           else
             [Operation.CallContextOp RW.Write (envW.rwc + (if 1 < envW.txId then 9 else 8) + 1)
               CallContextField.TxId (envW.txId + 1)]) ∧
      cum = envW.cumulativeGasUsed + (envW.txGas - envW.gasLeft) :=
  ⟨by decide, endtx_receipt_ops envW caW cbW (by decide) (by decide) (by decide) (by decide)⟩

/-!
## Transaction prologue

Embeds the opening of `gen_begin_tx_ops` (`bus-mapping/src/wasm/opcodes.rs`
lines 582-614): the four fixed CallContext writes and the caller
nonce-increment account write.
-/

lemma lookupAccount_setAccountField (l : List (Nat × Account)) (addr : Nat)
    (f : AccountField) (v : Nat) :
    lookupAccount (setAccountField l addr f v) addr
      = some (((lookupAccount l addr).getD Account.empty).set f v) := by
  induction l with
  | nil => simp [setAccountField, lookupAccount]
  | cons p l ih =>
    by_cases hh : p.1 = addr
    · simp [setAccountField, lookupAccount, hh]
    · simp [setAccountField, lookupAccount, hh, ih]

/-- Updating a field at an address and reading the same address back
yields the updated account (found). -/
lemma getAccount_setField_self (sdb : StateDB) (addr : Nat) (f : AccountField) (v : Nat) :
    (sdb.setField addr f v).getAccount addr = (true, (sdb.getAccount addr).2.set f v) := by
  simp only [StateDB.setField, StateDB.getAccount, lookupAccount_setAccountField]
  cases hf : lookupAccount sdb.accounts addr <;> simp [hf]

/-- Modelled from the spec: `StateDB::increase_nonce` increments the
addressed account's nonce and returns the new value. -/
def StateDB.increaseNonce (sdb : StateDB) (addr : Nat) : StateDB × Nat :=
  let n := (sdb.getAccount addr).2.nonce
  (sdb.setField addr AccountField.Nonce (n + 1), n + 1)

/-- The `while nonce_prev < state.tx.nonce` catch-up loop of
`gen_begin_tx_ops`, with an explicit fuel bounding the iteration count
(the source loop increments the database nonce once per iteration, so
`target - noncePrev` iterations run). -/
def nonceLoop (fuel : Nat) (sdb : StateDB) (addr : Nat) (target : Nat) (noncePrev : Nat) :
    StateDB × Nat :=
  match fuel with
  | 0 => (sdb, noncePrev)
  | fuel + 1 =>
    if noncePrev < target then
      let r := sdb.increaseNonce addr
      nonceLoop fuel r.1 addr target r.2
    else (sdb, noncePrev)

lemma nonceLoop_eq (fuel : Nat) :
    ∀ (sdb : StateDB) (addr target noncePrev : Nat),
      (sdb.getAccount addr).2.nonce = noncePrev →
      noncePrev ≤ target →
      target - noncePrev ≤ fuel →
      (nonceLoop fuel sdb addr target noncePrev).2 = target ∧
      ((nonceLoop fuel sdb addr target noncePrev).1.getAccount addr).2.nonce = target := by
  induction fuel with
  | zero =>
    intro sdb addr target noncePrev hdb hle hfuel
    have heq : noncePrev = target := by omega
    subst heq
    exact ⟨rfl, hdb⟩
  | succ fuel ih =>
    intro sdb addr target noncePrev hdb hle hfuel
    by_cases hlt : noncePrev < target
    · have h2 : (sdb.increaseNonce addr).2 = noncePrev + 1 := by
        simp [StateDB.increaseNonce, hdb]
      have hinc : ((sdb.increaseNonce addr).1.getAccount addr).2.nonce = noncePrev + 1 := by
        simp [StateDB.increaseNonce, getAccount_setField_self, hdb, Account.set]
      simp only [nonceLoop, hlt, if_true]
      rw [h2]
      exact ih _ _ _ _ hinc (by omega) (by omega)
    · have heq : noncePrev = target := by omega
      subst heq
      refine ⟨?_, ?_⟩ <;> simp [nonceLoop, hlt, hdb]

/-- The root call fields consumed by the `gen_begin_tx_ops` opening. -/
structure BeginTxCall where
  callId : Nat
  rwCounterEndOfReversion : Nat
  isPersistent : Bool
  isSuccess : Bool
  callerAddress : Nat
  deriving DecidableEq, Repr

/-- Orchestrator context consumed by the `gen_begin_tx_ops` opening:
`txId` is `state.tx_ctx.id()` and `txNonce` is `state.tx.nonce`. -/
structure BeginTxEnv where
  txId : Nat
  txNonce : Nat
  call : BeginTxCall
  sdb : StateDB
  deriving DecidableEq, Repr

/-- Embeds lines 582-614 of `gen_begin_tx_ops` (`opcodes.rs`): the four
fixed CallContext writes (TxId, RwCounterEndOfReversion, IsPersistent,
IsSuccess), the `debug_assert!(nonce_prev <= state.tx.nonce)` (an
assertion failure is modelled as `none`), the nonce catch-up loop, and
the caller nonce-increment account write. -/
def gen_begin_tx_ops_opening (env : BeginTxEnv) : Option (List Operation × StateDB) :=
  let call := env.call
  let ccOps : List Operation :=
    [Operation.CallContextOp RW.Write call.callId CallContextField.TxId env.txId,
     Operation.CallContextOp RW.Write call.callId CallContextField.RwCounterEndOfReversion
       call.rwCounterEndOfReversion,
     Operation.CallContextOp RW.Write call.callId CallContextField.IsPersistent
       (boolToWord call.isPersistent),
     Operation.CallContextOp RW.Write call.callId CallContextField.IsSuccess
       (boolToWord call.isSuccess)]
  let noncePrev0 := (env.sdb.getAccount call.callerAddress).2.nonce
  if noncePrev0 ≤ env.txNonce then
    let r := nonceLoop (env.txNonce - noncePrev0) env.sdb call.callerAddress env.txNonce noncePrev0
    match accountWrite r.1 call.callerAddress AccountField.Nonce (r.2 + 1) r.2 with
    | none => none
    | some (nonceOp, sdb2) => some (ccOps ++ [nonceOp], sdb2)
  else none

/-- C6: the `gen_begin_tx_ops` opening emits, in this fixed order, the
four CallContext writes TxId, RwCounterEndOfReversion, IsPersistent and
IsSuccess, followed by the caller nonce-increment AccountOp write whose
value is the previous nonce plus one; the transaction nonce must be at
least the database nonce (asserted: otherwise the prefix fails), and
the database nonce is only ever increased — sequentially up to the
transaction nonce, then by the increment write. -/
theorem begin_tx_prefix_ops (env : BeginTxEnv) :
    ((env.sdb.getAccount env.call.callerAddress).2.nonce ≤ env.txNonce →
      ∃ sdbOut, gen_begin_tx_ops_opening env = some
        ([Operation.CallContextOp RW.Write env.call.callId CallContextField.TxId env.txId,
          Operation.CallContextOp RW.Write env.call.callId
            CallContextField.RwCounterEndOfReversion env.call.rwCounterEndOfReversion,
          Operation.CallContextOp RW.Write env.call.callId CallContextField.IsPersistent
            (boolToWord env.call.isPersistent),
          Operation.CallContextOp RW.Write env.call.callId CallContextField.IsSuccess
            (boolToWord env.call.isSuccess),
          Operation.AccountOp RW.Write env.call.callerAddress AccountField.Nonce
            (env.txNonce + 1) env.txNonce],
         sdbOut) ∧
        (sdbOut.getAccount env.call.callerAddress).2.nonce = env.txNonce + 1) ∧
    (env.txNonce < (env.sdb.getAccount env.call.callerAddress).2.nonce →
      gen_begin_tx_ops_opening env = none) := by
  constructor
  · intro hle
    obtain ⟨h2, h1⟩ := nonceLoop_eq
      (env.txNonce - (env.sdb.getAccount env.call.callerAddress).2.nonce)
      env.sdb env.call.callerAddress env.txNonce
      (env.sdb.getAccount env.call.callerAddress).2.nonce rfl hle (Nat.le_refl _)
    simp only [gen_begin_tx_ops_opening, if_pos hle]
    rw [h2]
    have hwa : accountWrite
        (nonceLoop (env.txNonce - (env.sdb.getAccount env.call.callerAddress).2.nonce)
          env.sdb env.call.callerAddress env.txNonce
          (env.sdb.getAccount env.call.callerAddress).2.nonce).1
        env.call.callerAddress AccountField.Nonce (env.txNonce + 1) env.txNonce
        = some (Operation.AccountOp RW.Write env.call.callerAddress AccountField.Nonce
            (env.txNonce + 1) env.txNonce,
          (nonceLoop (env.txNonce - (env.sdb.getAccount env.call.callerAddress).2.nonce)
            env.sdb env.call.callerAddress env.txNonce
            (env.sdb.getAccount env.call.callerAddress).2.nonce).1.setField
            env.call.callerAddress AccountField.Nonce (env.txNonce + 1)) := by
      simp [accountWrite, Account.get, h1]
    rw [hwa]
    refine ⟨(nonceLoop (env.txNonce - (env.sdb.getAccount env.call.callerAddress).2.nonce)
        env.sdb env.call.callerAddress env.txNonce
        (env.sdb.getAccount env.call.callerAddress).2.nonce).1.setField
        env.call.callerAddress AccountField.Nonce (env.txNonce + 1), rfl, ?_⟩
    simp [getAccount_setField_self, Account.set]
  · intro hgt
    simp only [gen_begin_tx_ops_opening]
    rw [if_neg (by omega)]

/-- A begin-tx context whose caller account has database nonce 3 while
the transaction carries nonce 5. -/
def envB : BeginTxEnv := ⟨7, 5, ⟨11, 99, true, true, 1⟩, ⟨[(1, ⟨3, 0, 0⟩)], [], 0⟩⟩

/-- A begin-tx context whose caller account has database nonce 5 while
the transaction carries the smaller nonce 3 (assertion failure). -/
def envB2 : BeginTxEnv := ⟨7, 3, ⟨11, 99, true, true, 1⟩, ⟨[(1, ⟨5, 0, 0⟩)], [], 0⟩⟩

/-- C6 witness: the theorem applied at concrete contexts for both the
successful branch and the failing assertion. -/
theorem begin_tx_prefix_ops_witness :
    (∃ sdbOut, gen_begin_tx_ops_opening envB = some
        ([Operation.CallContextOp RW.Write envB.call.callId CallContextField.TxId envB.txId,
          Operation.CallContextOp RW.Write envB.call.callId
            CallContextField.RwCounterEndOfReversion envB.call.rwCounterEndOfReversion,
          Operation.CallContextOp RW.Write envB.call.callId CallContextField.IsPersistent
            (boolToWord envB.call.isPersistent),
          Operation.CallContextOp RW.Write envB.call.callId CallContextField.IsSuccess
            (boolToWord envB.call.isSuccess),
          Operation.AccountOp RW.Write envB.call.callerAddress AccountField.Nonce
            (envB.txNonce + 1) envB.txNonce],
         sdbOut) ∧
        (sdbOut.getAccount envB.call.callerAddress).2.nonce = envB.txNonce + 1) ∧
    gen_begin_tx_ops_opening envB2 = none :=
  ⟨(begin_tx_prefix_ops envB).1 (by decide), (begin_tx_prefix_ops envB2).2 (by decide)⟩

/-!
## Error-state dispatch

Embeds `fn_gen_error_state_associated_ops` (`opcodes.rs` lines 386-469)
and the error branch of `gen_associated_ops` (lines 517-561).
-/

/-- The opcode identities the embedded error paths distinguish
(`eth_types::evm_types::OpcodeId`, restricted to the opcodes these
paths inspect). -/
inductive OpcodeId
  | CALL
  | CALLCODE
  | DELEGATECALL
  | STATICCALL
  | CREATE
  | CREATE2
  | CALLVALUE
  | SELFDESTRUCT
  | SSTORE
  | STOP
  deriving DecidableEq, Repr

/-- Modelled from the spec: `OpcodeId::is_call_or_create` (`eth_types`,
not under the available sources): true exactly for the
CALL/CALLCODE/DELEGATECALL/STATICCALL/CREATE/CREATE2 family. -/
def OpcodeId.is_call_or_create : OpcodeId → Bool
  | .CALL | .CALLCODE | .DELEGATECALL | .STATICCALL | .CREATE | .CREATE2 => true
  | _ => false

/-- Out-of-gas error kinds (`error::OogError`, variants from the spec's
error taxonomy). -/
inductive OogError
  | Call
  | Constant
  | Create
  | Log
  | DynamicMemoryExpansion
  | StaticMemoryExpansion
  | Exp
  | MemoryCopy
  | Sha3
  | SloadSstore
  | AccountAccess
  deriving DecidableEq, Repr

/-- Opcode family tag of a depth error. -/
inductive DepthError
  | Call
  | Create
  | Create2
  deriving DecidableEq, Repr

/-- Opcode family tag of an insufficient-balance error. -/
inductive InsufficientBalanceError
  | Call
  | Create
  | Create2
  deriving DecidableEq, Repr

/-- Opcode family tag of a contract-address-collision error. -/
inductive ContractAddressCollisionError
  | Create
  | Create2
  deriving DecidableEq, Repr

/-- Opcode family tag of a nonce-overflow error. -/
inductive NonceUintOverflowError
  | Create
  | Create2
  deriving DecidableEq, Repr

/-- The classified execution errors (`error::ExecError`, not under the
available sources; variants from the spec's error taxonomy).  The extra
`Unimplemented` constructor is modelled from the spec: it stands for
the error states with no registered handler, which the dispatcher's
wildcard arm maps to `None` ("errors with no registered handler fall
back to a logged no-op"). -/
inductive ExecError
  | InvalidJump
  | InvalidOpcode
  | Depth (e : DepthError)
  | OutOfGas (e : OogError)
  | StackOverflow
  | StackUnderflow
  | CodeStoreOutOfGas
  | MaxCodeSizeExceeded
  | InsufficientBalance (e : InsufficientBalanceError)
  | PrecompileFailed
  | WriteProtection
  | ReturnDataOutOfBounds
  | ContractAddressCollision (e : ContractAddressCollisionError)
  | NonceUintOverflow (e : NonceUintOverflowError)
  | InvalidCreationCode
  | Unimplemented (tag : Nat)
  deriving DecidableEq, Repr

/-- Names of the dedicated error handlers the dispatcher can select
(the handler functions live in other modules; only their identity
matters here). -/
inductive HandlerTag
  | invalidJump
  | stackOnly (nPop nPush : Nat) (isErr : Bool)
  | callOp (withValue : Bool)
  | create (isCreate2 : Bool)
  | oogCall
  | oogLog
  | oogDynamicMemory
  | oogMemoryCopy
  | oogSloadSstore
  | oogAccountAccess
  | codeStore
  | precompileFailed
  | writeProtection
  | returnDataOutOfBound
  | creationCode
  deriving DecidableEq, Repr

/-- Outcome of the dispatcher: a selected handler, `noHandler` for the
wildcard `None` arm, or `panics` for the `unreachable!` arm. -/
inductive DispatchResult
  | handler (t : HandlerTag)
  | noHandler
  | panics
  deriving DecidableEq, Repr

/-- Embeds `fn_gen_error_state_associated_ops` (`opcodes.rs` lines
386-469): the pure lookup from a classified error (disambiguated by the
failing opcode for `Depth(Call)`) to the dedicated handler. -/
def fn_gen_error_state_associated_ops (geth_step_op : OpcodeId) (error : ExecError) :
    DispatchResult :=
  match error with
  | .InvalidJump => .handler .invalidJump
  | .InvalidOpcode => .handler (.stackOnly 0 0 false)
  | .Depth .Call =>
    match geth_step_op with
    | .CALL | .CALLCODE => .handler (.callOp true)
    | .DELEGATECALL | .STATICCALL => .handler (.callOp false)
    | _ => .panics
  | .Depth .Create => .handler (.create false)
  | .Depth .Create2 => .handler (.create true)
  | .OutOfGas .Call => .handler .oogCall
  | .OutOfGas .Constant => .handler (.stackOnly 0 0 true)
  | .OutOfGas .Create => .handler (.stackOnly 4 0 true)
  | .OutOfGas .Log => .handler .oogLog
  | .OutOfGas .DynamicMemoryExpansion => .handler .oogDynamicMemory
  | .OutOfGas .StaticMemoryExpansion => .handler (.stackOnly 1 0 true)
  | .OutOfGas .Exp => .handler (.stackOnly 2 0 true)
  | .OutOfGas .MemoryCopy => .handler .oogMemoryCopy
  | .OutOfGas .Sha3 => .handler (.stackOnly 2 0 true)
  | .OutOfGas .SloadSstore => .handler .oogSloadSstore
  | .OutOfGas .AccountAccess => .handler .oogAccountAccess
  | .StackOverflow => .handler (.stackOnly 0 0 true)
  | .StackUnderflow => .handler (.stackOnly 0 0 true)
  | .CodeStoreOutOfGas => .handler .codeStore
  | .MaxCodeSizeExceeded => .handler .codeStore
  | .InsufficientBalance .Call => .handler (.callOp true)
  | .InsufficientBalance .Create => .handler (.create false)
  | .InsufficientBalance .Create2 => .handler (.create true)
  | .PrecompileFailed => .handler .precompileFailed
  | .WriteProtection => .handler .writeProtection
  | .ReturnDataOutOfBounds => .handler .returnDataOutOfBound
  | .ContractAddressCollision .Create => .handler (.create false)
  | .ContractAddressCollision .Create2 => .handler (.create true)
  | .NonceUintOverflow .Create => .handler (.create false)
  | .NonceUintOverflow .Create2 => .handler (.create true)
  | .InvalidCreationCode => .handler .creationCode
  | .Unimplemented _ => .noHandler

/-- A minimal execution step for the error paths: the error tag plus an
opaque payload standing for the remaining row fields. -/
structure ErrStep where
  error : Option ExecError
  payload : Nat
  deriving DecidableEq, Repr

/-- The reified call-stack actions of the unhandled-error path:
`parse_call`/`push_call`, and `handle_return` with its `need_restore`
flag. -/
inductive CallAction
  | parseAndPushCall
  | handleReturn (needRestore : Bool)
  deriving DecidableEq, Repr

/-- Embeds the error branch of `gen_associated_ops` (`opcodes.rs` lines
517-561), entered when `get_step_err` classified `execError` for the
failing step.  `payload` stands for the freshly allocated
`exec_step`; the dedicated handler's own output is abstracted as the
`handlerSteps` parameter (the handler bodies live in other modules).
The `debug_assert_eq!` comparing the handler's error tag with the
classification, and the panicking `steps[0]` access on an empty handler
output, are modelled as `none`.  For the unhandled path the call-stack
effects are reified as `CallAction`s (modelled from the spec). -/
def gen_associated_ops_on_error (op : OpcodeId) (execError : ExecError) (payload : Nat)
    (handlerSteps : List ErrStep) : Option (List ErrStep × List CallAction) :=
  match fn_gen_error_state_associated_ops op execError with
  | .panics => none
  | .handler _ =>
    match handlerSteps with
    | [] => none
    | s0 :: rest =>
      match s0.error with
      | some e =>
        if e = execError then some ({ s0 with error := some execError } :: rest, [])
        else none
      | none => some ({ s0 with error := some execError } :: rest, [])
  | .noHandler =>
    if op.is_call_or_create = true ∧ execError ≠ ExecError.OutOfGas OogError.Create then
      some ([⟨some execError, payload⟩],
        [CallAction.parseAndPushCall, CallAction.handleReturn false])
    else
      some ([⟨some execError, payload⟩], [CallAction.handleReturn true])

/-- C4: when the dispatcher returns no handler for the classified
error: for a call/create-family opcode whose error is not
out-of-gas-on-create, the call frame is parsed and pushed and generic
return handling runs with `need_restore = false`; otherwise no frame is
pushed and `handle_return` runs with `need_restore = true`; in both
cases exactly one step is returned, carrying the classified error. -/
theorem unhandled_error_path (op : OpcodeId) (execError : ExecError) (payload : Nat)
    (handlerSteps : List ErrStep)
    (h : fn_gen_error_state_associated_ops op execError = DispatchResult.noHandler) :
    gen_associated_ops_on_error op execError payload handlerSteps
      = some ([⟨some execError, payload⟩],
          if op.is_call_or_create = true ∧ execError ≠ ExecError.OutOfGas OogError.Create then
            [CallAction.parseAndPushCall, CallAction.handleReturn false]
          else [CallAction.handleReturn true]) ∧
    ([(⟨some execError, payload⟩ : ErrStep)]).length = 1 := by
  constructor
  · simp only [gen_associated_ops_on_error, h]
    split <;> rfl
  · rfl

/-- C4 witness: the theorem applied to a CALL step failing with an
error state that has no registered handler. -/
theorem unhandled_error_path_witness :
    fn_gen_error_state_associated_ops OpcodeId.CALL (ExecError.Unimplemented 0)
      = DispatchResult.noHandler ∧
    (gen_associated_ops_on_error OpcodeId.CALL (ExecError.Unimplemented 0) 3 []
      = some ([⟨some (ExecError.Unimplemented 0), 3⟩],
          if OpcodeId.CALL.is_call_or_create = true ∧
              ExecError.Unimplemented 0 ≠ ExecError.OutOfGas OogError.Create then
            [CallAction.parseAndPushCall, CallAction.handleReturn false]
          else [CallAction.handleReturn true]) ∧
     ([(⟨some (ExecError.Unimplemented 0), 3⟩ : ErrStep)]).length = 1) :=
  ⟨by decide, unhandled_error_path OpcodeId.CALL (ExecError.Unimplemented 0) 3 [] (by decide)⟩

/-- C5: when a dedicated handler exists for the classified error, the
first step returned by the error branch has its error field equal to
the dispatcher's classification, and whenever the handler itself tagged
its first emitted step with an error, that tag equals the
classification (the debug assertion). -/
theorem handled_error_path (op : OpcodeId) (execError : ExecError) (payload : Nat)
    (handlerSteps : List ErrStep) (t : HandlerTag) (out : List ErrStep × List CallAction)
    (hdisp : fn_gen_error_state_associated_ops op execError = DispatchResult.handler t)
    (hout : gen_associated_ops_on_error op execError payload handlerSteps = some out) :
    (out.1.head?.map ErrStep.error) = some (some execError) ∧
    (∀ s0 rest e, handlerSteps = s0 :: rest → s0.error = some e → e = execError) := by
  cases handlerSteps with
  | nil => simp [gen_associated_ops_on_error, hdisp] at hout
  | cons s0 rest =>
    cases hse : s0.error with
    | some e =>
      by_cases he : e = execError
      · subst he
        simp only [gen_associated_ops_on_error, hdisp, hse, eq_self_iff_true, ite_true,
          Option.some.injEq] at hout
        subst hout
        constructor
        · rfl
        · intro s0a resta ea heq herr
          injection heq with hh1 hh2
          subst hh1
          rw [hse] at herr
          injection herr with hh3
          exact hh3.symm
      · simp [gen_associated_ops_on_error, hdisp, hse, he] at hout
    | none =>
      simp only [gen_associated_ops_on_error, hdisp, hse, Option.some.injEq] at hout
      subst hout
      constructor
      · rfl
      · intro s0a resta ea heq herr
        injection heq with hh1 hh2
        subst hh1
        rw [hse] at herr
        exact Option.noConfusion herr

/-- C5 witness: the theorem applied to an SSTORE step failing with
out-of-gas-on-sload-sstore, whose handler tagged its first step with
the same error. -/
theorem handled_error_path_witness :
    fn_gen_error_state_associated_ops OpcodeId.SSTORE (ExecError.OutOfGas OogError.SloadSstore)
      = DispatchResult.handler HandlerTag.oogSloadSstore ∧
    ((([⟨some (ExecError.OutOfGas OogError.SloadSstore), 3⟩] : List ErrStep),
        ([] : List CallAction)).1.head?.map ErrStep.error
      = some (some (ExecError.OutOfGas OogError.SloadSstore)) ∧
     (∀ s0 rest e,
        ([⟨some (ExecError.OutOfGas OogError.SloadSstore), 3⟩] : List ErrStep) = s0 :: rest →
        s0.error = some e → e = ExecError.OutOfGas OogError.SloadSstore)) :=
  ⟨by decide,
   handled_error_path OpcodeId.SSTORE (ExecError.OutOfGas OogError.SloadSstore) 0
     [⟨some (ExecError.OutOfGas OogError.SloadSstore), 3⟩] HandlerTag.oogSloadSstore
     ([⟨some (ExecError.OutOfGas OogError.SloadSstore), 3⟩], []) (by decide) (by decide)⟩

/-- C9 counterexample: with `CHECK_MEM_STRICT` unset and diverging
memories, `gen_associated_ops` performs no comparison at all — the
divergence is neither logged nor fixed, contradicting the claim that in
no configuration it is ignored silently. -/
theorem mem_check_silent_counterexample :
    mem_check false true [0] [1] = (MemCheckOutcome.unchanged, [0]) ∧ ([0] : List Nat) ≠ [1] := by
  constructor
  · rfl
  · decide

/-- C9 (amended): when the memories diverge and step memory is present,
the strict configuration panics, while the non-strict configuration
performs no check and leaves the state memory unchanged; the
log-and-fix behavior (check level 1) is unreachable in both
configurations. -/
theorem mem_check_modes (stateMem traceMem : List Nat) (h : stateMem ≠ traceMem) :
    mem_check true true stateMem traceMem = (MemCheckOutcome.panicked, stateMem) ∧
    mem_check false true stateMem traceMem = (MemCheckOutcome.unchanged, stateMem) ∧
    (∀ strict enabled : Bool,
      (mem_check strict enabled stateMem traceMem).1 ≠ MemCheckOutcome.loggedAndFixed) := by
  refine ⟨?_, rfl, ?_⟩
  · simp [mem_check, h]
  · intro strict enabled
    cases strict <;> cases enabled <;> simp [mem_check, h]

/-- C9 witness: the amended theorem applied at a concrete divergent pair. -/
theorem mem_check_modes_witness :
    ([0] : List Nat) ≠ [1] ∧
    (mem_check true true [0] [1] = (MemCheckOutcome.panicked, [0]) ∧
     mem_check false true [0] [1] = (MemCheckOutcome.unchanged, [0]) ∧
     (∀ strict enabled : Bool,
       (mem_check strict enabled [0] [1]).1 ≠ MemCheckOutcome.loggedAndFixed)) :=
  ⟨by decide, mem_check_modes [0] [1] (by decide)⟩

end Wasm0
